import Mathlib

/-!
Shallow embedding of the trading core of `src/bvdu_bank.c` (BVDU-Bank).
C `double` values are modelled as rationals; the in-memory arrays
`prices[]` and `holdings[]` become lists scanned front to back, exactly
like the linear `find_*_index` helpers in the source.
-/

namespace BVDU

/-- Mirrors C struct `PriceRec`: asset id, name, native price, volatility,
market tag, last-update stamp, and the open/close hours. -/
structure PriceRec where
  asset_id : String
  asset_name : String
  price : ℚ
  vol : ℚ
  market : String
  last_update : String
  open_hour : Int
  close_hour : Int
deriving DecidableEq

/-- Mirrors C struct `Holding`: account number, asset id/name, quantity,
average price in native currency, market tag. -/
structure Holding where
  acc_no : Int
  asset_id : String
  asset_name : String
  qty : ℚ
  avg_price : ℚ
  market : String
deriving DecidableEq

/-- Mirrors C struct `FXRates` (the timestamp field is irrelevant here). -/
structure FXRates where
  inr_per_usd : ℚ
  inr_per_eur : ℚ
deriving DecidableEq

/-- C `market_is_open`: half-open window when `open_hour <= close_hour`,
wrap-around (`hour >= open || hour < close`) otherwise. `hour` is the
local wall-clock hour `tm_hour`. -/
def market_is_open (p : PriceRec) (hour : Int) : Bool :=
  if p.open_hour ≤ p.close_hour then
    decide (hour ≥ p.open_hour ∧ hour < p.close_hour)
  else
    decide (hour ≥ p.open_hour ∨ hour < p.close_hour)

/-- C `find_price_index`: first record whose `asset_id` matches (strcmp). -/
def find_price : List PriceRec → String → Option PriceRec
  | [], _ => none
  | p :: rest, aid => if p.asset_id = aid then some p else find_price rest aid

/-- C `find_holding_index`: first holding matching `(acc_no, asset_id)`. -/
def find_holding : List Holding → Int → String → Option Holding
  | [], _, _ => none
  | h :: rest, acc, aid =>
      if h.acc_no = acc ∧ h.asset_id = aid then some h
      else find_holding rest acc aid

/-- C `price_in_inr`: convert a catalog record's native price to INR. -/
def price_in_inr (fx : FXRates) (p : PriceRec) : ℚ :=
  if p.market = "IN" then p.price
  else if p.market = "US" then p.price * fx.inr_per_usd
  else if p.market = "EU" then p.price * fx.inr_per_eur
  else p.price

/-- C `cost_in_inr_for_purchase`: native cost `price * qty`, converted to
INR by market, falling through to the native amount for unknown markets. -/
def cost_in_inr_for_purchase (fx : FXRates) (p : PriceRec) (qty : ℚ) : ℚ :=
  let cost_native := p.price * qty
  if p.market = "IN" then cost_native
  else if p.market = "US" then cost_native * fx.inr_per_usd
  else if p.market = "EU" then cost_native * fx.inr_per_eur
  else cost_native

/-- The FX Converter mapping as the spec states it: identity for IN,
INR-per-USD for US, INR-per-EUR for EU, 1.0 for any unrecognized market. -/
def fx_rate (fx : FXRates) (market : String) : ℚ :=
  if market = "IN" then 1
  else if market = "US" then fx.inr_per_usd
  else if market = "EU" then fx.inr_per_eur
  else 1

theorem cost_eq_price_mul_qty_mul_rate (fx : FXRates) (p : PriceRec) (qty : ℚ) :
    cost_in_inr_for_purchase fx p qty = p.price * qty * fx_rate fx p.market := by
  unfold cost_in_inr_for_purchase fx_rate
  by_cases h1 : p.market = "IN" <;> by_cases h2 : p.market = "US" <;>
    by_cases h3 : p.market = "EU" <;> simp [h1, h2, h3]

/-! ## Portfolio valuation (`compute_portfolio_value_inr`, `compute_unrealized_pl_inr`) -/

/-- The fallback used by `compute_portfolio_value_inr` when the holding's
asset is absent from the catalog: the C ternary
`avg_price * (market=="US" ? inr_per_usd : 1.0)`. -/
def fallback_value_price (fx : FXRates) (h : Holding) : ℚ :=
  h.avg_price * (if h.market = "US" then fx.inr_per_usd else 1)

/-- One holding's summand in the loop of C `compute_portfolio_value_inr`. -/
def value_term (fx : FXRates) (prices : List PriceRec) (h : Holding) : ℚ :=
  h.qty * (match find_price prices h.asset_id with
           | some p => price_in_inr fx p
           | none => fallback_value_price fx h)

/-- C `compute_portfolio_value_inr`: sum `qty * cur_price` over the
account's holdings, where `cur_price` is `price_in_inr` of the catalog
record if present, otherwise the US-or-1 fallback on `avg_price`. -/
def compute_portfolio_value_inr (fx : FXRates) (prices : List PriceRec) :
    List Holding → Int → ℚ
  | [], _ => 0
  | h :: rest, acc =>
      (if h.acc_no = acc then value_term fx prices h else 0) +
        compute_portfolio_value_inr fx prices rest acc

/-- Current INR price of a holding inside C `compute_unrealized_pl_inr`:
native current price (catalog price, or `avg_price` if the asset is gone)
converted by the holding's market through the IN/US/EU if-chain. -/
def cur_inr_of (fx : FXRates) (prices : List PriceRec) (h : Holding) : ℚ :=
  let cur_price_native := match find_price prices h.asset_id with
    | some p => p.price
    | none => h.avg_price
  if h.market = "IN" then cur_price_native
  else if h.market = "US" then cur_price_native * fx.inr_per_usd
  else if h.market = "EU" then cur_price_native * fx.inr_per_eur
  else cur_price_native

/-- Cost-basis leg inside C `compute_unrealized_pl_inr`: the ternary chain
`avg_price * (US ? usd : (EU ? eur : 1.0))`. -/
def avg_inr_of (fx : FXRates) (h : Holding) : ℚ :=
  h.avg_price *
    (if h.market = "US" then fx.inr_per_usd
     else if h.market = "EU" then fx.inr_per_eur
     else 1)

/-- One holding's summand in the loop of C `compute_unrealized_pl_inr`. -/
def pl_term (fx : FXRates) (prices : List PriceRec) (h : Holding) : ℚ :=
  h.qty * (cur_inr_of fx prices h - avg_inr_of fx h)

/-- C `compute_unrealized_pl_inr`: sum the P/L terms of the account's
holdings. -/
def compute_unrealized_pl_inr (fx : FXRates) (prices : List PriceRec) :
    List Holding → Int → ℚ
  | [], _ => 0
  | h :: rest, acc =>
      (if h.acc_no = acc then pl_term fx prices h else 0) +
        compute_unrealized_pl_inr fx prices rest acc

/-! ## Trade executor (`buy_asset_loggedin`, `sell_asset_loggedin`) -/

/-- The C constant `MAX_HOLDINGS`. -/
def MAX_HOLDINGS : Nat := 2000

/-- Cash balance of the logged-in account plus the holdings array: the
mutable state a buy/sell touches. -/
structure TradeState where
  balance : ℚ
  holdings : List Holding
deriving DecidableEq

/-- Outcome of `buy_asset_loggedin`, one constructor per early `return`. -/
inductive BuyResult where
  | ok
  | assetNotFound
  | marketClosed
  | invalidQuantity
  | insufficientFunds
  | holdingsLimitReached
deriving DecidableEq

/-- Outcome of `sell_asset_loggedin`, one constructor per early `return`. -/
inductive SellResult where
  | ok
  | assetUnknown
  | noSuchPosition
  | invalidQuantity
deriving DecidableEq

/-- The existing-holding update in the `else` branch of the buy:
`total_old = avg*qty_old`, `total_new = fill*qty`, quantity accumulates,
and `avg_price` is recomputed when the new quantity is positive. -/
def buy_update (fill_price qty : ℚ) (h : Holding) : Holding :=
  let total_old := h.avg_price * h.qty
  let total_new := fill_price * qty
  let q2 := h.qty + qty
  { h with
    qty := q2
    avg_price := if q2 > 0 then (total_old + total_new) / q2 else h.avg_price }

/-- Replace the first holding matching `(acc, aid)` by `f` of it — the
in-place `holdings[hidx] = ...` update at the first matching index. -/
def update_holding : List Holding → Int → String → (Holding → Holding) → List Holding
  | [], _, _, _ => []
  | h :: rest, acc, aid, f =>
      if h.acc_no = acc ∧ h.asset_id = aid then f h :: rest
      else h :: update_holding rest acc aid f

/-- C `buy_asset_loggedin`, step for step: resolve the asset, gate on
`market_is_open`, reject `qty <= 0`, reject when the INR cost exceeds the
balance, then **deduct cash first** and only afterwards look up / create
the holding; when the holdings array is full the function returns with the
cash already deducted and no holding added (the early `return` at the
`MAX_HOLDINGS` check). A new holding is appended with `avg_price` set to
the current catalog price; an existing one gets `buy_update`. -/
def buy_asset_loggedin (fx : FXRates) (prices : List PriceRec) (hour : Int)
    (acc : Int) (aid : String) (qty : ℚ) (st : TradeState) :
    BuyResult × TradeState :=
  match find_price prices aid with
  | none => (.assetNotFound, st)
  | some pr =>
    if market_is_open pr hour = false then (.marketClosed, st)
    else if qty ≤ 0 then (.invalidQuantity, st)
    else
      let cost_inr := cost_in_inr_for_purchase fx pr qty
      if cost_inr > st.balance then (.insufficientFunds, st)
      else
        let bal2 := st.balance - cost_inr
        match find_holding st.holdings acc pr.asset_id with
        | none =>
            if st.holdings.length ≥ MAX_HOLDINGS then
              (.holdingsLimitReached, { st with balance := bal2 })
            else
              (.ok, { balance := bal2
                      holdings := st.holdings ++
                        [{ acc_no := acc
                           asset_id := pr.asset_id
                           asset_name := pr.asset_name
                           qty := qty
                           avg_price := pr.price
                           market := pr.market }] })
        | some _ =>
            (.ok, { balance := bal2
                    holdings := update_holding st.holdings acc pr.asset_id
                      (buy_update pr.price qty) })

/-- The holdings-array mutation of the sell: decrement the first matching
holding's quantity, and when the remainder is `<= 0.000001` delete the row
(the C shift-left loop). -/
def reduce_holding : List Holding → Int → String → ℚ → List Holding
  | [], _, _, _ => []
  | h :: rest, acc, aid, qty =>
      if h.acc_no = acc ∧ h.asset_id = aid then
        let q2 := h.qty - qty
        if q2 ≤ 1/1000000 then rest
        else { h with qty := q2 } :: rest
      else h :: reduce_holding rest acc aid qty

/-- C `sell_asset_loggedin`, step for step: resolve the asset (no
market-hours check anywhere on the sell path), require an existing
holding, reject `qty <= 0 || qty > held`, compute proceeds with
`cost_in_inr_for_purchase`, reduce the holding and credit the balance. -/
def sell_asset_loggedin (fx : FXRates) (prices : List PriceRec)
    (acc : Int) (aid : String) (qty : ℚ) (st : TradeState) :
    SellResult × TradeState :=
  match find_price prices aid with
  | none => (.assetUnknown, st)
  | some pr =>
    match find_holding st.holdings acc aid with
    | none => (.noSuchPosition, st)
    | some h =>
      if qty ≤ 0 ∨ qty > h.qty then (.invalidQuantity, st)
      else
        let proceeds_inr := cost_in_inr_for_purchase fx pr qty
        (.ok, { balance := st.balance + proceeds_inr
                holdings := reduce_holding st.holdings acc aid qty })

/-! ## Market ticks (`tick_market_once`, `admin_randomize_all_prices`) -/

/-- Body of the open-market branch of C `tick_market_once` for one asset:
`change = draw * vol`, `price *= (1 + change)`, clamp at `0.0001`, stamp
`last_update`. -/
def tick_one (draw : ℚ) (ts : String) (p : PriceRec) : PriceRec :=
  let p1 := p.price * (1 + draw * p.vol)
  { p with price := if p1 < 1/10000 then 1/10000 else p1, last_update := ts }

/-- C `tick_market_once` over the catalog: assets whose market is open get
`tick_one` with a fresh draw, the rest are returned untouched. `i` indexes
the per-asset random draws. -/
def tick_market_once (hour : Int) (ts : String) (draw : Nat → ℚ) :
    Nat → List PriceRec → List PriceRec
  | _, [] => []
  | i, p :: rest =>
      (if market_is_open p hour then tick_one (draw i) ts p else p) ::
        tick_market_once hour ts draw (i + 1) rest

/-- Body of the loop of C `admin_randomize_all_prices` for one asset:
`change = draw * vol * 5.0`, `price *= (1 + change)`, clamp at `0.0001`,
stamp `last_update` — applied with no market-hours test. -/
def admin_tick_one (draw : ℚ) (ts : String) (p : PriceRec) : PriceRec :=
  let p1 := p.price * (1 + draw * p.vol * 5)
  { p with price := if p1 < 1/10000 then 1/10000 else p1, last_update := ts }

/-- C `admin_randomize_all_prices`: every asset of the catalog, open or
closed, gets the big move. -/
def admin_randomize_all_prices (ts : String) (draw : Nat → ℚ) :
    Nat → List PriceRec → List PriceRec
  | _, [] => []
  | i, p :: rest =>
      admin_tick_one (draw i) ts p :: admin_randomize_all_prices ts draw (i + 1) rest

/-! ## Concrete sample data, matching the C seed values -/

/-- The compiled-in FX defaults `{83.5, 88.2, ""}`. -/
def fx0 : FXRates := { inr_per_usd := 167/2, inr_per_eur := 441/5 }

/-- The seeded AAPL record from `ensure_default_prices`. -/
def aapl : PriceRec :=
  { asset_id := "AAPL", asset_name := "Apple Inc", price := 190, vol := 1/50,
    market := "US", last_update := "", open_hour := 9, close_hour := 17 }

/-- AAPL after an admin price change to 200 (native). -/
def aapl200 : PriceRec := { aapl with price := 200 }

/-- The seeded INFY record from `ensure_default_prices` (IN market,
open 9 to 15, so closed at hour 3). -/
def infy : PriceRec :=
  { asset_id := "INFY", asset_name := "Infosys Ltd", price := 1500, vol := 1/100,
    market := "IN", last_update := "", open_hour := 9, close_hour := 15 }

/-- A sample INFY holding of account 1001. -/
def hInfy : Holding :=
  { acc_no := 1001, asset_id := "INFY", asset_name := "Infosys Ltd",
    qty := 5, avg_price := 1400, market := "IN" }

/-- An EU-market holding whose asset is absent from the catalog. -/
def sieHolding : Holding :=
  { acc_no := 1001, asset_id := "SIE", asset_name := "Siemens",
    qty := 2, avg_price := 10, market := "EU" }

/-- A holding of an unrelated account, used to fill the array. -/
def filler : Holding :=
  { acc_no := 999, asset_id := "JUNK", asset_name := "JUNK",
    qty := 1, avg_price := 1, market := "IN" }

/-- A holdings array at the `MAX_HOLDINGS` capacity cap. -/
def full_book : List Holding := List.replicate MAX_HOLDINGS filler

/-- A price record with `open_hour = 9` and `close_hour = 24`. -/
def asset924 : PriceRec :=
  { asset_id := "X", asset_name := "X", price := 1, vol := 0,
    market := "IN", last_update := "", open_hour := 9, close_hour := 24 }

/-- Mark-to-market of one position as the (amended) spec words it: the
catalog price through the FX Converter when the asset is present,
otherwise the position's own `avg_price` times INR-per-USD for US and
times 1 for every other market. -/
def spec_position_value (fx : FXRates) (prices : List PriceRec) (h : Holding) : ℚ :=
  match find_price prices h.asset_id with
  | some p => h.qty * price_in_inr fx p
  | none => h.qty * (h.avg_price * (if h.market = "US" then fx.inr_per_usd else 1))

/-- Mark-to-market of an account as the (amended) spec words it: filter
the book to the account, value each position, sum. -/
def spec_mark_to_market (fx : FXRates) (prices : List PriceRec)
    (hs : List Holding) (acc : Int) : ℚ :=
  ((hs.filter fun h => h.acc_no == acc).map (spec_position_value fx prices)).sum

/-! ## Helper lemmas -/

theorem find_price_asset_id (prices : List PriceRec) (aid : String) (pr : PriceRec)
    (hfind : find_price prices aid = some pr) : pr.asset_id = aid := by
  induction prices with
  | nil => simp [find_price] at hfind
  | cons p rest ih =>
    by_cases hp : p.asset_id = aid
    · simp [find_price, hp] at hfind
      rw [← hfind]; exact hp
    · simp [find_price, hp] at hfind
      exact ih hfind

theorem find_holding_cons_none (x : Holding) (xs : List Holding) (acc : Int)
    (aid : String) (hnone : find_holding (x :: xs) acc aid = none) :
    ¬(x.acc_no = acc ∧ x.asset_id = aid) ∧ find_holding xs acc aid = none := by
  by_cases hx : x.acc_no = acc ∧ x.asset_id = aid
  · simp [find_holding, hx] at hnone
  · simp [find_holding, hx] at hnone
    exact ⟨hx, hnone⟩

theorem find_holding_append (l1 l2 : List Holding) (acc : Int) (aid : String)
    (hnone : find_holding l1 acc aid = none) :
    find_holding (l1 ++ l2) acc aid = find_holding l2 acc aid := by
  induction l1 with
  | nil => rfl
  | cons x xs ih =>
    obtain ⟨hx, hrest⟩ := find_holding_cons_none x xs acc aid hnone
    simp [find_holding, hx, ih hrest]

theorem find_holding_match (pre post : List Holding) (h : Holding) (acc : Int)
    (aid : String) (hpre : find_holding pre acc aid = none)
    (hacc : h.acc_no = acc) (hid : h.asset_id = aid) :
    find_holding (pre ++ h :: post) acc aid = some h := by
  rw [find_holding_append pre (h :: post) acc aid hpre]
  simp [find_holding, hacc, hid]

theorem update_holding_append (l : List Holding) (h : Holding) (acc : Int)
    (aid : String) (f : Holding → Holding)
    (hnone : find_holding l acc aid = none)
    (hacc : h.acc_no = acc) (hid : h.asset_id = aid) :
    update_holding (l ++ [h]) acc aid f = l ++ [f h] := by
  induction l with
  | nil => simp [update_holding, hacc, hid]
  | cons x xs ih =>
    obtain ⟨hx, hrest⟩ := find_holding_cons_none x xs acc aid hnone
    simp [update_holding, hx, ih hrest]

theorem reduce_holding_split (pre post : List Holding) (h : Holding) (acc : Int)
    (aid : String) (qty : ℚ) (hpre : find_holding pre acc aid = none)
    (hacc : h.acc_no = acc) (hid : h.asset_id = aid) :
    reduce_holding (pre ++ h :: post) acc aid qty =
      pre ++ (if h.qty - qty ≤ 1/1000000 then post
              else { h with qty := h.qty - qty } :: post) := by
  induction pre with
  | nil => simp [reduce_holding, hacc, hid]
  | cons x xs ih =>
    obtain ⟨hx, hrest⟩ := find_holding_cons_none x xs acc aid hpre
    simp [reduce_holding, hx, ih hrest]

theorem find_holding_replicate (n : Nat) (x : Holding) (acc : Int) (aid : String)
    (hne : ¬(x.acc_no = acc ∧ x.asset_id = aid)) :
    find_holding (List.replicate n x) acc aid = none := by
  induction n with
  | zero => rfl
  | succ n ih => simp [List.replicate_succ, find_holding, hne, ih]

/-! ## Claim theorems -/

/-- C9 (counterexample): the claim's clause "close_hour = 24 means always
open" is false — `asset924` has `close_hour = 24` but is closed at hour 3,
because the code only tests `hour >= open_hour && hour < close_hour`. -/
theorem C9_counterexample :
    ¬(∀ (p : PriceRec) (hour : Int), 0 ≤ hour → hour < 24 →
        p.close_hour = 24 → market_is_open p hour = true) := by
  intro hall
  exact absurd (hall asset924 3 (by decide) (by decide) rfl) (by decide)

/-- C9 (amended): `market_is_open` is true exactly when the hour lies in
the half-open window `[open_hour, close_hour)` if `open_hour <= close_hour`
and when `hour >= open_hour` or `hour < close_hour` otherwise;
`close_hour = 24` means open exactly when `hour >= open_hour`, hence
always open only together with `open_hour = 0`; an asset with
`open_hour = 20, close_hour = 4` is open at hour 23 and hour 2 and closed
at hour 10. -/
theorem C9_market_hours (p : PriceRec) (hour : Int) :
    (market_is_open p hour = true ↔
      (if p.open_hour ≤ p.close_hour then p.open_hour ≤ hour ∧ hour < p.close_hour
       else hour ≥ p.open_hour ∨ hour < p.close_hour)) ∧
    (p.open_hour ≤ 24 → p.close_hour = 24 → 0 ≤ hour → hour < 24 →
      (market_is_open p hour = true ↔ p.open_hour ≤ hour)) ∧
    (p.open_hour = 0 → p.close_hour = 24 → 0 ≤ hour → hour < 24 →
      market_is_open p hour = true) ∧
    (p.open_hour = 20 → p.close_hour = 4 →
      market_is_open p 23 = true ∧ market_is_open p 2 = true ∧
        market_is_open p 10 = false) := by
  refine ⟨?_, ?_, ?_, ?_⟩
  · unfold market_is_open
    by_cases hoc : p.open_hour ≤ p.close_hour <;> simp [hoc]
  · intro hop24 h24 h0 hlt
    unfold market_is_open
    rw [h24]
    simp [hop24]
    omega
  · intro hop h24 h0 hlt
    unfold market_is_open
    rw [hop, h24]
    simp
    omega
  · intro hop hcl
    unfold market_is_open
    rw [hop, hcl]
    refine ⟨by decide, by decide, by decide⟩

/-- C9 (witness): the amended theorem applied to the wrap-around asset
with `open_hour = 20, close_hour = 4` at the concrete hours of the spec. -/
theorem C9_market_hours_witness :
    market_is_open { asset_id := "N", asset_name := "N", price := 1, vol := 0,
                     market := "IN", last_update := "", open_hour := 20,
                     close_hour := 4 } 23 = true ∧
    market_is_open { asset_id := "N", asset_name := "N", price := 1, vol := 0,
                     market := "IN", last_update := "", open_hour := 20,
                     close_hour := 4 } 2 = true ∧
    market_is_open { asset_id := "N", asset_name := "N", price := 1, vol := 0,
                     market := "IN", last_update := "", open_hour := 20,
                     close_hour := 4 } 10 = false :=
  (C9_market_hours
    { asset_id := "N", asset_name := "N", price := 1, vol := 0,
      market := "IN", last_update := "", open_hour := 20, close_hour := 4 }
    23).2.2.2 rfl rfl

set_option maxRecDepth 100000

/-- C1 (code bug): a buy of 2 AAPL at 190 USD with the holdings array at
`MAX_HOLDINGS` capacity and no existing AAPL position debits the cash
balance (50000 INR down to 18270 INR) and then returns at the capacity
check without creating the position — a partially applied trade is
observable, contradicting the spec's atomicity requirement. -/
theorem C1_capacity_check_after_debit :
    buy_asset_loggedin fx0 [aapl] 10 1001 "AAPL" 2
        { balance := 50000, holdings := full_book } =
      (.holdingsLimitReached, { balance := 18270, holdings := full_book }) ∧
    (18270 : ℚ) ≠ 50000 := by
  constructor
  · have hfh : find_holding full_book 1001 "AAPL" = none :=
      find_holding_replicate MAX_HOLDINGS filler 1001 "AAPL" (by decide)
    have hlen : full_book.length = MAX_HOLDINGS := List.length_replicate _ _
    have hfp : find_price [aapl] "AAPL" = some aapl := by
      simp [find_price, aapl]
    have hopen : market_is_open aapl 10 = true := by decide
    have hcost : cost_in_inr_for_purchase fx0 aapl 2 = 31730 := by
      norm_num [cost_in_inr_for_purchase, aapl, fx0]
      all_goals decide
    have hfh2 : find_holding full_book 1001 aapl.asset_id = none := hfh
    rw [buy_asset_loggedin, hfp]
    norm_num [hopen, hcost, hfh2, hlen, MAX_HOLDINGS]
  · norm_num

/-- C2 (counterexample): the sell path never checks market hours — at
hour 3 the INFY market (open 9 to 15) is closed, yet selling 2 INFY
succeeds, credits 3000 INR of proceeds, and mutates the position book. -/
theorem C2_counterexample :
    market_is_open infy 3 = false ∧
    sell_asset_loggedin fx0 [infy] 1001 "INFY" 2
        { balance := 1000, holdings := [hInfy] } =
      (.ok, { balance := 4000, holdings := [{ hInfy with qty := 3 }] }) ∧
    (4000 : ℚ) ≠ 1000 := by
  refine ⟨by decide, ?_, by norm_num⟩
  norm_num [sell_asset_loggedin, find_price, find_holding, reduce_holding,
    cost_in_inr_for_purchase, infy, hInfy, fx0]

/-- C3 (counterexample): for an EU position whose asset is absent from the
catalog, `compute_portfolio_value_inr` values it at `avg_price` with NO
EUR conversion (factor 1.0): the account is valued at 20 INR, while the
claim's EU rule (`avg_price * inr_per_eur * qty`) gives 1764 INR. -/
theorem C3_counterexample :
    compute_portfolio_value_inr fx0 [] [sieHolding] 1001 = 20 ∧
    sieHolding.market = "EU" ∧
    sieHolding.qty * (sieHolding.avg_price * fx0.inr_per_eur) = 1764 ∧
    (20 : ℚ) ≠ 1764 := by
  refine ⟨?_, rfl, ?_, by norm_num⟩
  · have hne : ¬(sieHolding.market = "US") := by decide
    norm_num [compute_portfolio_value_inr, value_term, fallback_value_price,
      find_price, hne, sieHolding, fx0]
    all_goals decide
  · norm_num [sieHolding, fx0]

/-- C7 (counterexample): the administrative big-move tick has no
market-hours test — at hour 3 the INFY market is closed, yet
`admin_randomize_all_prices` moves its price from 1500 to 1575 (draw 1,
volatility 0.01, factor 5) and stamps `last_update`. -/
theorem C7_counterexample :
    market_is_open infy 3 = false ∧
    admin_randomize_all_prices "T" (fun _ => 1) 0 [infy] =
      [{ infy with price := 1575, last_update := "T" }] ∧
    (1575 : ℚ) ≠ 1500 ∧ infy.price = 1500 := by
  refine ⟨by decide, ?_, by norm_num, rfl⟩
  norm_num [admin_randomize_all_prices, admin_tick_one, infy]

theorem value_term_eq_spec (fx : FXRates) (prices : List PriceRec) (h : Holding) :
    value_term fx prices h = spec_position_value fx prices h := by
  unfold value_term spec_position_value fallback_value_price
  cases find_price prices h.asset_id <;> rfl

/-- C3 (amended): the portfolio value in INR is the sum over the account's
positions of quantity times the current price in INR, where a position
whose asset is present in the catalog uses `price_in_inr` of the catalog
record, and a position whose asset is absent uses its own `avg_price`
converted by INR-per-USD for US positions and by the factor 1.0 for every
other market — including EU, whose fallback is NOT converted through
INR-per-EUR. -/
theorem C3_mark_to_market_fallback (fx : FXRates) (prices : List PriceRec)
    (hs : List Holding) (acc : Int) :
    compute_portfolio_value_inr fx prices hs acc =
      spec_mark_to_market fx prices hs acc := by
  induction hs with
  | nil => rfl
  | cons h rest ih =>
    by_cases hacc : h.acc_no = acc
    · simp [compute_portfolio_value_inr, spec_mark_to_market, List.filter_cons,
        hacc, value_term_eq_spec, ih, spec_mark_to_market]
    · simp [compute_portfolio_value_inr, spec_mark_to_market, List.filter_cons,
        hacc, ih, spec_mark_to_market]

/-- C2 (amended): market-hours gating applies only to buys — a buy on an
asset whose market is closed at the current hour fails with MarketClosed
and mutates nothing, while the sell path performs no market-hours check at
all: there is a sell on an asset whose market is closed that succeeds and
mutates the state. -/
theorem C2_market_gating_buy_only (fx : FXRates) (prices : List PriceRec)
    (hour : Int) (acc : Int) (aid : String) (qty : ℚ) (st : TradeState)
    (pr : PriceRec) (hfind : find_price prices aid = some pr)
    (hclosed : market_is_open pr hour = false) :
    buy_asset_loggedin fx prices hour acc aid qty st = (.marketClosed, st) ∧
    ∃ (fx2 : FXRates) (prices2 : List PriceRec) (acc2 : Int) (aid2 : String)
      (qty2 : ℚ) (st2 : TradeState) (pr2 : PriceRec) (hour2 : Int),
        find_price prices2 aid2 = some pr2 ∧
        market_is_open pr2 hour2 = false ∧
        (sell_asset_loggedin fx2 prices2 acc2 aid2 qty2 st2).1 = .ok ∧
        (sell_asset_loggedin fx2 prices2 acc2 aid2 qty2 st2).2 ≠ st2 := by
  constructor
  · rw [buy_asset_loggedin, hfind]
    simp [hclosed]
  · have hsell : sell_asset_loggedin fx0 [infy] 1001 "INFY" 2
        { balance := 1000, holdings := [hInfy] } =
        (.ok, { balance := 4000, holdings := [{ hInfy with qty := 3 }] }) := by
      norm_num [sell_asset_loggedin, find_price, find_holding, reduce_holding,
        cost_in_inr_for_purchase, infy, hInfy, fx0]
    refine ⟨fx0, [infy], 1001, "INFY", 2, { balance := 1000, holdings := [hInfy] },
      infy, 3, by simp [find_price, infy], by decide, ?_, ?_⟩
    · rw [hsell]
    · rw [hsell]
      norm_num

/-- C2 (witness): the buy-gating half of the amended theorem at the
concrete closed-market input (INFY at hour 3). -/
theorem C2_market_gating_buy_only_witness :
    buy_asset_loggedin fx0 [infy] 3 1001 "INFY" 2
        { balance := 1000, holdings := [hInfy] } =
      (.marketClosed, { balance := 1000, holdings := [hInfy] }) :=
  (C2_market_gating_buy_only fx0 [infy] 3 1001 "INFY" 2
    { balance := 1000, holdings := [hInfy] } infy
    (by simp [find_price, infy]) (by decide)).1

/-- C4: for a buy that passes the asset, market-hours, quantity and
capacity checks, the buy is accepted exactly when the balance covers
`price_native * qty * fx_rate(market)` (the FX Converter mapping:
identity for IN, INR-per-USD for US, INR-per-EUR for EU, 1.0 otherwise);
an accepted buy leaves `cash_after = cash_before - cost_inr`, and an
unaffordable one fails with InsufficientFunds and mutates nothing. -/
theorem C4_buy_cost_arithmetic (fx : FXRates) (prices : List PriceRec)
    (hour : Int) (acc : Int) (aid : String) (qty : ℚ) (st : TradeState)
    (pr : PriceRec) (hfind : find_price prices aid = some pr)
    (hopen : market_is_open pr hour = true) (hqty : 0 < qty)
    (hcap : find_holding st.holdings acc pr.asset_id ≠ none ∨
            st.holdings.length < MAX_HOLDINGS) :
    ((buy_asset_loggedin fx prices hour acc aid qty st).1 = .ok ↔
      pr.price * qty * fx_rate fx pr.market ≤ st.balance) ∧
    (pr.price * qty * fx_rate fx pr.market ≤ st.balance →
      (buy_asset_loggedin fx prices hour acc aid qty st).2.balance =
        st.balance - pr.price * qty * fx_rate fx pr.market) ∧
    (st.balance < pr.price * qty * fx_rate fx pr.market →
      buy_asset_loggedin fx prices hour acc aid qty st =
        (.insufficientFunds, st)) := by
  have hc := cost_eq_price_mul_qty_mul_rate fx pr qty
  have hq0 : ¬(qty ≤ 0) := not_le.mpr hqty
  by_cases hb : cost_in_inr_for_purchase fx pr qty > st.balance
  · have hbuy : buy_asset_loggedin fx prices hour acc aid qty st =
        (.insufficientFunds, st) := by
      rw [buy_asset_loggedin, hfind]
      simp [hopen, hq0, hb]
    refine ⟨?_, ?_, fun _ => hbuy⟩
    · rw [hbuy]
      simp only [← hc]
      constructor
      · intro hcontr
        exact absurd hcontr (by simp)
      · intro hle
        exact absurd hle (not_le.mpr hb)
    · intro hle
      exact absurd hle (not_le.mpr (hc ▸ hb))
  · have hble : cost_in_inr_for_purchase fx pr qty ≤ st.balance := not_lt.mp hb
    have hok : (buy_asset_loggedin fx prices hour acc aid qty st).1 = .ok ∧
        (buy_asset_loggedin fx prices hour acc aid qty st).2.balance =
          st.balance - cost_in_inr_for_purchase fx pr qty := by
      rw [buy_asset_loggedin, hfind]
      cases hfh : find_holding st.holdings acc pr.asset_id with
      | none =>
        have hlen : st.holdings.length < MAX_HOLDINGS := by
          rcases hcap with hcap | hcap
          · exact absurd hfh hcap
          · exact hcap
        simp [hopen, hq0, hb, hfh, Nat.not_le.mpr hlen]
      | some h0 =>
        simp [hopen, hq0, hb, hfh]
    refine ⟨?_, fun _ => by rw [hok.2, hc], ?_⟩
    · rw [hok.1, ← hc]
      simp [hble]
    · intro hlt
      exact absurd (hc ▸ hble) (not_le.mpr hlt)

/-- C4 (witness): the theorem at the spec's own scenario — buy 2 AAPL at
190 USD with USD at 83.5 and 50000 INR of cash; the cost is 31730 INR and
the new balance 18270 INR. -/
theorem C4_buy_cost_arithmetic_witness :
    ((buy_asset_loggedin fx0 [aapl] 10 1001 "AAPL" 2
        { balance := 50000, holdings := [] }).1 = .ok ↔
      aapl.price * 2 * fx_rate fx0 aapl.market ≤ 50000) ∧
    (aapl.price * 2 * fx_rate fx0 aapl.market ≤ 50000 →
      (buy_asset_loggedin fx0 [aapl] 10 1001 "AAPL" 2
        { balance := 50000, holdings := [] }).2.balance =
        50000 - aapl.price * 2 * fx_rate fx0 aapl.market) ∧
    ((50000 : ℚ) < aapl.price * 2 * fx_rate fx0 aapl.market →
      buy_asset_loggedin fx0 [aapl] 10 1001 "AAPL" 2
          { balance := 50000, holdings := [] } =
        (.insufficientFunds, { balance := 50000, holdings := [] })) :=
  C4_buy_cost_arithmetic fx0 [aapl] 10 1001 "AAPL" 2
    { balance := 50000, holdings := [] } aapl
    (by simp [find_price, aapl]) (by decide) (by norm_num) (Or.inr (by decide))

theorem pl_term_absent_zero (fx : FXRates) (prices : List PriceRec) (h : Holding)
    (habsent : find_price prices h.asset_id = none) :
    pl_term fx prices h = 0 := by
  unfold pl_term cur_inr_of avg_inr_of
  rw [habsent]
  by_cases h1 : h.market = "IN"
  · simp [h1]
  · by_cases h2 : h.market = "US"
    · simp [h1, h2]
    · by_cases h3 : h.market = "EU"
      · simp [h1, h2, h3]
      · simp [h1, h2, h3]

/-- C10: a position whose `asset_id` is absent from the price catalog
contributes exactly zero to `compute_unrealized_pl_inr` — removing it from
the book does not change the account's unrealized P/L, because the
fallback sets the current native price to the position's own `avg_price`
and both legs convert by the same per-market factor. -/
theorem C10_missing_asset_zero_pl (fx : FXRates) (prices : List PriceRec)
    (pre post : List Holding) (h : Holding) (acc : Int)
    (habsent : find_price prices h.asset_id = none) :
    compute_unrealized_pl_inr fx prices (pre ++ h :: post) acc =
      compute_unrealized_pl_inr fx prices (pre ++ post) acc := by
  induction pre with
  | nil =>
    simp [compute_unrealized_pl_inr, pl_term_absent_zero fx prices h habsent]
  | cons x xs ih =>
    simp [compute_unrealized_pl_inr, ih]

/-- C10 (witness): the theorem at the concrete EU position with an empty
catalog — its P/L contribution is zero. -/
theorem C10_missing_asset_zero_pl_witness :
    compute_unrealized_pl_inr fx0 [] [sieHolding] 1001 =
      compute_unrealized_pl_inr fx0 [] [] 1001 :=
  C10_missing_asset_zero_pl fx0 [] [] [] sieHolding 1001 rfl

theorem tick_one_price_pos (draw : ℚ) (ts : String) (p : PriceRec) :
    0 < (tick_one draw ts p).price := by
  unfold tick_one
  dsimp only
  split
  · norm_num
  · rename_i hge
    have h1 : (1/10000 : ℚ) ≤ p.price * (1 + draw * p.vol) := not_lt.mp hge
    linarith

theorem admin_tick_one_price_pos (draw : ℚ) (ts : String) (p : PriceRec) :
    0 < (admin_tick_one draw ts p).price := by
  unfold admin_tick_one
  dsimp only
  split
  · norm_num
  · rename_i hge
    have h1 : (1/10000 : ℚ) ≤ p.price * (1 + draw * p.vol * 5) := not_lt.mp hge
    linarith

/-- C8: if every catalog price is strictly positive before a tick, then
after the ordinary tick and after the administrative big-move tick every
price is strictly positive — ticked assets are floor-clamped at 0.0001
for arbitrary (even adversarial) draws and volatilities, untouched assets
keep their positive price. -/
theorem C8_price_positivity (hour : Int) (ts : String) (draw : Nat → ℚ)
    (k : Nat) (prices : List PriceRec)
    (hpos : ∀ p ∈ prices, 0 < p.price) :
    (∀ q ∈ tick_market_once hour ts draw k prices, 0 < q.price) ∧
    (∀ q ∈ admin_randomize_all_prices ts draw k prices, 0 < q.price) := by
  induction prices generalizing k with
  | nil => simp [tick_market_once, admin_randomize_all_prices]
  | cons p rest ih =>
    have hp : 0 < p.price := hpos p (by simp)
    have hrest : ∀ q ∈ rest, 0 < q.price :=
      fun q hq => hpos q (List.mem_cons_of_mem p hq)
    obtain ⟨ih1, ih2⟩ := ih (k + 1) hrest
    constructor
    · intro q hq
      rw [tick_market_once] at hq
      rcases List.mem_cons.mp hq with hq | hq
      · subst hq
        by_cases hopen : market_is_open p hour
        · simpa [hopen] using tick_one_price_pos (draw k) ts p
        · simpa [hopen] using hp
      · exact ih1 q hq
    · intro q hq
      rw [admin_randomize_all_prices] at hq
      rcases List.mem_cons.mp hq with hq | hq
      · subst hq
        exact admin_tick_one_price_pos (draw k) ts p
      · exact ih2 q hq

/-- C8 (witness): the theorem at the one-asset catalog `[infy]` with
draw 1 at hour 3 — the admin-ticked price is still positive. -/
theorem C8_price_positivity_witness :
    0 < (admin_tick_one 1 "T" infy).price :=
  (C8_price_positivity 3 "T" (fun _ => 1) 0 [infy]
      (by norm_num [infy])).2
    (admin_tick_one 1 "T" infy) (by simp [admin_randomize_all_prices])

/-- C7 (amended): the ordinary tick is frame-preserving on closed markets
— an asset whose market is closed at tick time keeps its exact record
(price and `last_update` included) — but the administrative big-move tick
applies the `volatility * 5` move to EVERY asset of the catalog,
regardless of market hours. -/
theorem C7_tick_frame (hour : Int) (ts : String) (draw : Nat → ℚ)
    (k i : Nat) (prices : List PriceRec) (p : PriceRec)
    (hget : prices.get? i = some p) :
    (market_is_open p hour = false →
      (tick_market_once hour ts draw k prices).get? i = some p) ∧
    (admin_randomize_all_prices ts draw k prices).get? i =
      some (admin_tick_one (draw (k + i)) ts p) := by
  induction prices generalizing k i with
  | nil => simp at hget
  | cons q rest ih =>
    cases i with
    | zero =>
      simp only [List.get?_cons_zero, Option.some.injEq] at hget
      subst hget
      constructor
      · intro hcl
        simp [tick_market_once, hcl]
      · simp [admin_randomize_all_prices]
    | succ j =>
      have hget2 : rest.get? j = some p := by simpa using hget
      have hih := ih (k + 1) j hget2
      have hidx : k + 1 + j = k + (j + 1) := by omega
      constructor
      · intro hcl
        rw [tick_market_once, List.get?_cons_succ]
        exact hih.1 hcl
      · rw [admin_randomize_all_prices, List.get?_cons_succ, ← hidx]
        exact hih.2

/-- C7 (witness): the amended theorem at the one-asset catalog `[infy]` at
hour 3 (closed): the ordinary tick leaves the record untouched while the
admin tick replaces it with the big-move update. -/
theorem C7_tick_frame_witness :
    (tick_market_once 3 "T" (fun _ => 1) 0 [infy]).get? 0 = some infy ∧
    (admin_randomize_all_prices "T" (fun _ => 1) 0 [infy]).get? 0 =
      some (admin_tick_one 1 "T" infy) :=
  ⟨(C7_tick_frame 3 "T" (fun _ => 1) 0 0 [infy] infy rfl).1 (by decide),
   (C7_tick_frame 3 "T" (fun _ => 1) 0 0 [infy] infy rfl).2⟩

/-- C6: a sell requires an existing position with `qty_held >= qty > 0`;
with no such position it fails with NoSuchPosition and with an invalid or
excessive quantity it fails with InvalidQuantity, in both cases leaving
the state (balance and every position, quantity and `avg_price` included)
unchanged; a sell that leaves the remainder at or below the 0.000001
epsilon (in particular a full sell) removes the position entirely, and a
partial sell decrements the quantity while keeping `avg_price` as it was. -/
theorem C6_sell_validation (fx : FXRates) (prices : List PriceRec) (acc : Int)
    (aid : String) (qty bal : ℚ) (pre post : List Holding) (h : Holding)
    (pr : PriceRec) (hfind : find_price prices aid = some pr)
    (hpre : find_holding pre acc aid = none)
    (hacc : h.acc_no = acc) (hid : h.asset_id = aid) :
    (∀ st : TradeState, find_holding st.holdings acc aid = none →
        sell_asset_loggedin fx prices acc aid qty st = (.noSuchPosition, st)) ∧
    (qty ≤ 0 ∨ h.qty < qty →
        sell_asset_loggedin fx prices acc aid qty
            { balance := bal, holdings := pre ++ h :: post } =
          (.invalidQuantity, { balance := bal, holdings := pre ++ h :: post })) ∧
    (0 < qty → qty ≤ h.qty → h.qty - qty ≤ 1/1000000 →
        sell_asset_loggedin fx prices acc aid qty
            { balance := bal, holdings := pre ++ h :: post } =
          (.ok, { balance := bal + cost_in_inr_for_purchase fx pr qty,
                  holdings := pre ++ post })) ∧
    (0 < qty → 1/1000000 < h.qty - qty →
        sell_asset_loggedin fx prices acc aid qty
            { balance := bal, holdings := pre ++ h :: post } =
          (.ok, { balance := bal + cost_in_inr_for_purchase fx pr qty,
                  holdings := pre ++ { h with qty := h.qty - qty } :: post })) := by
  have hfh : find_holding (pre ++ h :: post) acc aid = some h :=
    find_holding_match pre post h acc aid hpre hacc hid
  refine ⟨?_, ?_, ?_, ?_⟩
  · intro st hnone
    rw [sell_asset_loggedin, hfind, hnone]
  · intro hbad
    have hbad2 : qty ≤ 0 ∨ qty > h.qty := hbad
    rw [sell_asset_loggedin, hfind]
    simp [hfh, hbad2]
  · intro hq hle heps
    have hguard : ¬(qty ≤ 0 ∨ qty > h.qty) :=
      not_or.mpr ⟨not_le.mpr hq, not_lt.mpr hle⟩
    rw [sell_asset_loggedin, hfind]
    simp [hfh, hguard]
    rw [reduce_holding_split pre post h acc aid qty hpre hacc hid, if_pos heps]
  · intro hq heps
    have hle : qty ≤ h.qty := by linarith
    have hguard : ¬(qty ≤ 0 ∨ qty > h.qty) :=
      not_or.mpr ⟨not_le.mpr hq, not_lt.mpr hle⟩
    rw [sell_asset_loggedin, hfind]
    simp [hfh, hguard]
    rw [reduce_holding_split pre post h acc aid qty hpre hacc hid,
      if_neg (not_le.mpr heps)]

/-- C6 (witness): the theorem at a concrete full sell — account 1001 sells
its whole 5-unit INFY position at 1500 INR; the position is removed and
7500 INR is credited. -/
theorem C6_sell_validation_witness :
    sell_asset_loggedin fx0 [infy] 1001 "INFY" 5
        { balance := 1000, holdings := [hInfy] } =
      (.ok, { balance := 1000 + cost_in_inr_for_purchase fx0 infy 5,
              holdings := [] }) :=
  (C6_sell_validation fx0 [infy] 1001 "INFY" 5 1000 [] [] hInfy infy
      (by simp [find_price, infy]) rfl rfl rfl).2.2.1
    (by norm_num) (by norm_num [hInfy]) (by norm_num [hInfy])

/-- C5: with no existing position for the pair, a first buy of `q1` units
at catalog price `p1` appends a position with quantity `q1` and
`avg_price = p1`; a second buy of `q2` units at catalog price `p2` on the
same pair yields quantity exactly `q1 + q2` and
`avg_price = (q1*p1 + q2*p2) / (q1 + q2)`; a buy with `qty <= 0` is
rejected with InvalidQuantity and mutates nothing. -/
theorem C5_average_cost (fx : FXRates) (hour1 hour2 : Int) (acc : Int)
    (prices1 prices2 : List PriceRec) (pr1 pr2 : PriceRec) (aid : String)
    (q1 q2 bal : ℚ) (hs : List Holding)
    (hfind1 : find_price prices1 aid = some pr1)
    (hfind2 : find_price prices2 aid = some pr2)
    (hopen1 : market_is_open pr1 hour1 = true)
    (hopen2 : market_is_open pr2 hour2 = true)
    (hq1 : 0 < q1) (hq2 : 0 < q2)
    (hfh : find_holding hs acc aid = none)
    (hcap : hs.length < MAX_HOLDINGS)
    (haff1 : cost_in_inr_for_purchase fx pr1 q1 ≤ bal)
    (haff2 : cost_in_inr_for_purchase fx pr2 q2 ≤
      bal - cost_in_inr_for_purchase fx pr1 q1) :
    (∀ q0 : ℚ, q0 ≤ 0 →
      buy_asset_loggedin fx prices1 hour1 acc aid q0
          { balance := bal, holdings := hs } =
        (.invalidQuantity, { balance := bal, holdings := hs })) ∧
    buy_asset_loggedin fx prices1 hour1 acc aid q1
        { balance := bal, holdings := hs } =
      (.ok, { balance := bal - cost_in_inr_for_purchase fx pr1 q1,
              holdings := hs ++
                [{ acc_no := acc, asset_id := pr1.asset_id,
                   asset_name := pr1.asset_name, qty := q1,
                   avg_price := pr1.price, market := pr1.market }] }) ∧
    buy_asset_loggedin fx prices2 hour2 acc aid q2
        { balance := bal - cost_in_inr_for_purchase fx pr1 q1,
          holdings := hs ++
            [{ acc_no := acc, asset_id := pr1.asset_id,
               asset_name := pr1.asset_name, qty := q1,
               avg_price := pr1.price, market := pr1.market }] } =
      (.ok, { balance := bal - cost_in_inr_for_purchase fx pr1 q1 -
                cost_in_inr_for_purchase fx pr2 q2,
              holdings := hs ++
                [{ acc_no := acc, asset_id := pr1.asset_id,
                   asset_name := pr1.asset_name, qty := q1 + q2,
                   avg_price := (q1 * pr1.price + q2 * pr2.price) / (q1 + q2),
                   market := pr1.market }] }) := by
  have hid1 : pr1.asset_id = aid := find_price_asset_id prices1 aid pr1 hfind1
  have hid2 : pr2.asset_id = aid := find_price_asset_id prices2 aid pr2 hfind2
  have hfh1 : find_holding hs acc pr1.asset_id = none := by rw [hid1]; exact hfh
  refine ⟨?_, ?_, ?_⟩
  · intro q0 hq0
    rw [buy_asset_loggedin, hfind1]
    simp [hopen1, hq0]
  · rw [buy_asset_loggedin, hfind1]
    simp [hopen1, not_le.mpr hq1, not_lt.mpr haff1, hfh1, Nat.not_le.mpr hcap]
  · have hnew : find_holding
        (hs ++ [{ acc_no := acc, asset_id := pr1.asset_id,
                  asset_name := pr1.asset_name, qty := q1,
                  avg_price := pr1.price, market := pr1.market }])
        acc pr2.asset_id =
        some { acc_no := acc, asset_id := pr1.asset_id,
               asset_name := pr1.asset_name, qty := q1,
               avg_price := pr1.price, market := pr1.market } := by
      rw [hid2]
      exact find_holding_match hs [] _ acc aid hfh rfl hid1
    rw [buy_asset_loggedin, hfind2]
    simp [hopen2, not_le.mpr hq2, not_lt.mpr haff2, hnew]
    rw [hid2, update_holding_append hs _ acc aid (buy_update pr2.price q2) hfh rfl hid1]
    have hpos : (0:ℚ) < q1 + q2 := by positivity
    have hupd : buy_update pr2.price q2
        { acc_no := acc, asset_id := pr1.asset_id, asset_name := pr1.asset_name,
          qty := q1, avg_price := pr1.price, market := pr1.market } =
        { acc_no := acc, asset_id := pr1.asset_id, asset_name := pr1.asset_name,
          qty := q1 + q2,
          avg_price := (q1 * pr1.price + q2 * pr2.price) / (q1 + q2),
          market := pr1.market } := by
      unfold buy_update
      simp [if_pos hpos]
      ring_nf
    rw [hupd]

/-- C5 (witness): the spec's own scenario — buy 2 AAPL at 190 then 1 more
at 200; the position ends at quantity 3 with average price
`(2*190 + 1*200)/3`. -/
theorem C5_average_cost_witness :
    buy_asset_loggedin fx0 [aapl] 10 1001 "AAPL" 2
        { balance := 50000, holdings := [] } =
      (.ok, { balance := 50000 - cost_in_inr_for_purchase fx0 aapl 2,
              holdings := [{ acc_no := 1001, asset_id := aapl.asset_id,
                             asset_name := aapl.asset_name, qty := 2,
                             avg_price := aapl.price,
                             market := aapl.market }] }) ∧
    buy_asset_loggedin fx0 [aapl200] 10 1001 "AAPL" 1
        { balance := 50000 - cost_in_inr_for_purchase fx0 aapl 2,
          holdings := [{ acc_no := 1001, asset_id := aapl.asset_id,
                         asset_name := aapl.asset_name, qty := 2,
                         avg_price := aapl.price,
                         market := aapl.market }] } =
      (.ok, { balance := 50000 - cost_in_inr_for_purchase fx0 aapl 2 -
                cost_in_inr_for_purchase fx0 aapl200 1,
              holdings := [{ acc_no := 1001, asset_id := aapl.asset_id,
                             asset_name := aapl.asset_name, qty := 2 + 1,
                             avg_price :=
                               (2 * aapl.price + 1 * aapl200.price) / (2 + 1),
                             market := aapl.market }] }) := by
  have hc1 : cost_in_inr_for_purchase fx0 aapl 2 = 31730 := by
    norm_num [cost_in_inr_for_purchase, aapl, fx0]
    all_goals decide
  have hc2 : cost_in_inr_for_purchase fx0 aapl200 1 = 16700 := by
    norm_num [cost_in_inr_for_purchase, aapl200, aapl, fx0]
    all_goals decide
  have happ := C5_average_cost fx0 10 10 1001 [aapl] [aapl200] aapl aapl200
    "AAPL" 2 1 50000 []
    (by simp [find_price, aapl]) (by simp [find_price, aapl200, aapl])
    (by decide) (by decide) (by norm_num) (by norm_num) rfl (by decide)
    (by rw [hc1]; norm_num) (by rw [hc2, hc1]; norm_num)
  exact ⟨happ.2.1, happ.2.2⟩

end BVDU
